import Mathlib

/-!
Verification of the airlock sandbox controller (donjaime/airlock).

This development shallowly embeds the configuration-resolution logic
(internal/config, function Load and its helpers) and the container
lifecycle controller (internal/container, type Runner) into Lean.

Modelling conventions:
- Go strings are Lean `String` values; byte-level operations on ASCII
  data coincide with character-level ones.
- Go maps (map[string]string) are modelled as association lists with an
  insert-or-replace operation (`envInsert`); map lookup is `envLookup`.
  Go map iteration order is unspecified, so every theorem about an
  environment map is stated through `envLookup`, never through the
  ordering of entries.
- The YAML library is an external collaborator: a parsed YAML document
  is a `ConfigLayer` record with one `Option` field per YAML key, `none`
  meaning the key is absent from the document.  Unmarshalling a document
  into an already-populated struct (the merge trick used by Load) is
  `mergeLayer`.
- Filesystem probes (os.Stat) and path decomposition (filepath.Dir,
  filepath.Base) are passed to `Load` as explicit arguments.
- The container engine is an external collaborator: the commands the
  controller would issue are collected in a list of `EngineCmd`, and the
  observable container state is an `EngineState`.  The model assumes
  every issued engine command succeeds, which is exactly the premise of
  the idempotence claim (no external state change).
-/

namespace Airlock

/-! ## String helpers (Go standard library semantics) -/

/-- Model of strings.HasPrefix from the Go standard library:
the bytes of p are an initial segment of the bytes of s. -/
def hasPre (s p : String) : Bool :=
  p.data.isPrefixOf s.data

/-- Model of strings.SplitN(e, sep, 2): the part before the first
occurrence of sep, and everything after it; `none` when sep does not
occur in e. -/
def splitOnce (e sep : String) : Option (String × String) :=
  match e.splitOn sep with
  | [] => none
  | [_] => none
  | k :: rest => some (k, String.intercalate sep rest)

/-! ## Path helpers (Go path/filepath semantics, unix) -/

/-- Model of filepath.IsAbs on unix: the path starts with a slash. -/
def isAbsPath (p : String) : Bool :=
  hasPre p "/"

/-- One step of the element loop inside filepath.Clean: skip empty and
dot elements, let dot-dot pop the previously kept element (or survive at
the front of a relative path), keep everything else. -/
def cleanStep (rooted : Bool) (out : List String) (e : String) : List String :=
  if e = "" ∨ e = "." then out
  else if e = ".." then
    if out ≠ [] ∧ out.getLast? ≠ some ".." then out.dropLast
    else if rooted then out
    else out ++ [".."]
  else out ++ [e]

/-- Model of filepath.Clean on unix paths: lexical processing of the
slash-separated elements. -/
def pathClean (path : String) : String :=
  if path = "" then "."
  else
    let rooted := hasPre path "/"
    let elems := path.splitOn "/"
    let out := elems.foldl (cleanStep rooted) []
    let s := String.intercalate "/" out
    let s := if rooted then "/" ++ s else s
    if s = "" then "." else s

/-- Model of filepath.Join on two elements: empty elements are skipped
and the result is cleaned. -/
def filepathJoin (a b : String) : String :=
  if a = "" then
    if b = "" then "" else pathClean b
  else if b = "" then pathClean a
  else pathClean (a ++ "/" ++ b)

/-- resolveHostPath from internal/container: an absolute path is kept,
a relative one is joined onto the project directory and cleaned. -/
def resolveHostPath (projectAbs p : String) : String :=
  if isAbsPath p then p
  else pathClean (filepathJoin projectAbs p)

/-! ## Environment maps (Go map[string]string semantics) -/

/-- Insert-or-replace on an association list; models assignment into a
Go map.  The position of an existing key is kept, a new key goes to the
back, so lookups behave exactly like Go map reads. -/
def envInsert (k v : String) : List (String × String) → List (String × String)
  | [] => [(k, v)]
  | kv :: rest => if kv.1 = k then (k, v) :: rest else kv :: envInsert k v rest

/-- Lookup in an association list; models a Go map read. -/
def envLookup (k : String) : List (String × String) → Option String
  | [] => none
  | kv :: rest => if kv.1 = k then some kv.2 else envLookup k rest

theorem envLookup_envInsert_self (k v : String) (m : List (String × String)) :
    envLookup k (envInsert k v m) = some v := by
  induction m with
  | nil => simp [envInsert, envLookup]
  | cons kv rest ih =>
    by_cases h : kv.1 = k
    · simp [envInsert, envLookup, h]
    · simp [envInsert, envLookup, h, ih]

theorem envLookup_envInsert_ne (k k' v : String) (m : List (String × String))
    (h : k ≠ k') : envLookup k (envInsert k' v m) = envLookup k m := by
  have h' : ¬ (k' = k) := fun hh => h hh.symm
  induction m with
  | nil => simp [envInsert, envLookup, h']
  | cons kv rest ih =>
    by_cases hk : kv.1 = k'
    · simp [envInsert, envLookup, hk, h']
    · simp [envInsert, envLookup, hk, ih]

/-! ## Configuration data model (internal/config) -/

/-- BuildConfig from internal/config: context, containerfile and tag of
a project-local image build. -/
structure BuildConfig where
  context : String
  containerfile : String
  tag : String
deriving Repr, DecidableEq

/-- Mount from internal/config: one explicit bind mount declared in the
configuration file. -/
structure Mount where
  source : String
  target : String
  mode : String
deriving Repr, DecidableEq

/-- Config from internal/config: the in-memory configuration struct.
The EnvVars map is modelled as an association list (see `envInsert`). -/
structure Config where
  name : String
  projectDir : String
  workDir : String
  image : String
  build : Option BuildConfig
  engine : String
  homeDir : String
  cacheDir : String
  mounts : List Mount
  env : List (String × String)
deriving Repr, DecidableEq

/-- The zero value of Config, the state of the struct before any YAML
document is unmarshalled into it. -/
def emptyConfig : Config :=
  ⟨"", "", "", "", none, "", "", "", [], []⟩

/-- A parsed YAML build section: one Option per key, none when the key
is absent from the document. -/
structure BuildLayer where
  context : Option String := none
  containerfile : Option String := none
  tag : Option String := none
deriving Repr, DecidableEq

/-- A parsed YAML configuration document: one Option per top-level key,
none when the key is absent.  The env value is the list of key/value
entries of the mapping, in document order. -/
structure ConfigLayer where
  name : Option String := none
  projectDir : Option String := none
  workDir : Option String := none
  image : Option String := none
  build : Option BuildLayer := none
  engine : Option String := none
  homeDir : Option String := none
  cacheDir : Option String := none
  mounts : Option (List Mount) := none
  env : Option (List (String × String)) := none
deriving Repr, DecidableEq

/-- EnvVars.UnmarshalYAML from internal/config: the decoded entries are
written into the existing map one by one, so decoding merges rather than
replaces. -/
def applyEnvEntries (base : List (String × String))
    (entries : List (String × String)) : List (String × String) :=
  entries.foldl (fun acc kv => envInsert kv.1 kv.2 acc) base

/-- yaml.Unmarshal of a build mapping into a *BuildConfig field: a nil
pointer is replaced by a fresh struct, a non-nil pointer is decoded into
in place, keys present in the document overwriting the old fields. -/
def mergeBuild (b : Option BuildConfig) (l : BuildLayer) : BuildConfig :=
  match b with
  | none => ⟨l.context.getD "", l.containerfile.getD "", l.tag.getD ""⟩
  | some b => ⟨l.context.getD b.context, l.containerfile.getD b.containerfile,
      l.tag.getD b.tag⟩

/-- yaml.Unmarshal of a document into an already-populated Config:
scalar keys present in the document replace the struct field, absent
keys leave it unchanged; the mounts sequence is replaced wholesale when
present; the env mapping merges key-wise (see applyEnvEntries); the
build mapping merges through the pointer (see mergeBuild). -/
def mergeLayer (c : Config) (l : ConfigLayer) : Config where
  name := l.name.getD c.name
  projectDir := l.projectDir.getD c.projectDir
  workDir := l.workDir.getD c.workDir
  image := l.image.getD c.image
  build := match l.build with
    | some bl => some (mergeBuild c.build bl)
    | none => c.build
  engine := l.engine.getD c.engine
  homeDir := l.homeDir.getD c.homeDir
  cacheDir := l.cacheDir.getD c.cacheDir
  mounts := l.mounts.getD c.mounts
  env := match l.env with
    | some entries => applyEnvEntries c.env entries
    | none => c.env

/-- One character of sanitizeName from internal/config: lowercase
letters and digits are kept, uppercase letters are lowercased, anything
else becomes a hyphen. -/
def sanitizeChar (r : Char) : Char :=
  if 'a' ≤ r ∧ r ≤ 'z' then r
  else if 'A' ≤ r ∧ r ≤ 'Z' then Char.ofNat (r.toNat + 32)
  else if '0' ≤ r ∧ r ≤ '9' then r
  else '-'

/-- sanitizeName from internal/config. -/
def sanitizeName (s : String) : String :=
  String.mk (s.data.map sanitizeChar)

/-- sanitizeTag from internal/config; identical to sanitizeName. -/
def sanitizeTag (s : String) : String :=
  sanitizeName s

/-- The defaults block of Load for name, projectDir and workDir.  The
arguments dirBase and dir stand for filepath.Base(filepath.Dir(path))
and filepath.Dir(path). -/
def applyNameDefaults (dirBase dir : String) (c : Config) : Config :=
  let c := if c.name = "" then { c with name := dirBase } else c
  let c := if c.projectDir = "" then { c with projectDir := dir } else c
  if c.workDir = "" then { c with workDir := "." } else c

/-- The containerfile probe of Load: when neither image nor build is
set, a build section is synthesized from a Containerfile found at the
current directory or under env/.  The two booleans stand for the
os.Stat probes on those paths. -/
def applyBuildProbe (containerfileExists envContainerfileExists : Bool)
    (c : Config) : Config :=
  if c.image = "" ∧ c.build = none then
    if containerfileExists then
      { c with build := some ⟨".", "Containerfile", ""⟩ }
    else if envContainerfileExists then
      { c with build := some ⟨"./env", "./env/Containerfile", ""⟩ }
    else c
  else c

/-- The build-defaults block of Load: context, containerfile and tag of
an existing build section receive their defaults when empty. -/
def applyBuildDefaults (c : Config) : Config :=
  match c.build with
  | some b =>
    let b := if b.context = "" then { b with context := "." } else b
    let b := if b.containerfile = "" then
        { b with containerfile := "Containerfile" } else b
    let b := if b.tag = "" then
        { b with tag := "airlock:" ++ sanitizeTag c.name } else b
    { c with build := some b }
  | none => c

/-- The home and cache defaults block of Load. -/
def applyDirDefaults (c : Config) : Config :=
  let c := if c.homeDir = "" then { c with homeDir := "./.airlock/home" } else c
  if c.cacheDir = "" then { c with cacheDir := "./.airlock/cache" } else c

/-- The second half of Load, from the image/build exclusion check on:
the mutual-exclusion error, the containerfile probe, the build and
directory defaults, and the final name check. -/
def loadResolve (containerfileExists envContainerfileExists : Bool)
    (c : Config) : Except String Config :=
  if c.image ≠ "" ∧ c.build.isSome then
    Except.error "Only one of either Image or Build can be configured"
  else
    let c := applyBuildProbe containerfileExists envContainerfileExists c
    let c := applyBuildDefaults c
    let c := applyDirDefaults c
    if c.name = "" then Except.error "name is required" else Except.ok c

/-- Load from internal/config.  File reading and YAML parsing are the
external collaborator: base is the parsed base document, localLayer the
parsed local-override document when .airlock/airlock.local.yaml exists
and parses (none when it is absent); dir and dirBase stand for
filepath.Dir(path) and filepath.Base of it; the two booleans stand for
the os.Stat probes on Containerfile and env/Containerfile.  The final
nil-map normalisation of Env is invisible in this model because the env
field is always a list. -/
def Load (base : ConfigLayer) (localLayer : Option ConfigLayer)
    (dirBase dir : String)
    (containerfileExists envContainerfileExists : Bool) :
    Except String Config :=
  let c := mergeLayer emptyConfig base
  let c := match localLayer with
    | some l => mergeLayer c l
    | none => c
  let c := applyNameDefaults dirBase dir c
  loadResolve containerfileExists envContainerfileExists c

/-! ## Field behaviour of the individual default stages -/

theorem applyNameDefaults_image (db d : String) (c : Config) :
    (applyNameDefaults db d c).image = c.image := by
  by_cases h1 : c.name = "" <;> by_cases h2 : c.projectDir = "" <;>
    by_cases h3 : c.workDir = "" <;> simp [applyNameDefaults, h1, h2, h3]

theorem applyNameDefaults_build (db d : String) (c : Config) :
    (applyNameDefaults db d c).build = c.build := by
  by_cases h1 : c.name = "" <;> by_cases h2 : c.projectDir = "" <;>
    by_cases h3 : c.workDir = "" <;> simp [applyNameDefaults, h1, h2, h3]

theorem applyNameDefaults_env (db d : String) (c : Config) :
    (applyNameDefaults db d c).env = c.env := by
  by_cases h1 : c.name = "" <;> by_cases h2 : c.projectDir = "" <;>
    by_cases h3 : c.workDir = "" <;> simp [applyNameDefaults, h1, h2, h3]

theorem applyNameDefaults_engine (db d : String) (c : Config) :
    (applyNameDefaults db d c).engine = c.engine := by
  by_cases h1 : c.name = "" <;> by_cases h2 : c.projectDir = "" <;>
    by_cases h3 : c.workDir = "" <;> simp [applyNameDefaults, h1, h2, h3]

theorem applyNameDefaults_homeDir (db d : String) (c : Config) :
    (applyNameDefaults db d c).homeDir = c.homeDir := by
  by_cases h1 : c.name = "" <;> by_cases h2 : c.projectDir = "" <;>
    by_cases h3 : c.workDir = "" <;> simp [applyNameDefaults, h1, h2, h3]

theorem applyNameDefaults_cacheDir (db d : String) (c : Config) :
    (applyNameDefaults db d c).cacheDir = c.cacheDir := by
  by_cases h1 : c.name = "" <;> by_cases h2 : c.projectDir = "" <;>
    by_cases h3 : c.workDir = "" <;> simp [applyNameDefaults, h1, h2, h3]

theorem applyNameDefaults_name_eq (db d : String) (c : Config) :
    (applyNameDefaults db d c).name = if c.name = "" then db else c.name := by
  by_cases h1 : c.name = "" <;> by_cases h2 : c.projectDir = "" <;>
    by_cases h3 : c.workDir = "" <;> simp [applyNameDefaults, h1, h2, h3]

theorem applyNameDefaults_projectDir_eq (db d : String) (c : Config) :
    (applyNameDefaults db d c).projectDir =
      if c.projectDir = "" then d else c.projectDir := by
  by_cases h1 : c.name = "" <;> by_cases h2 : c.projectDir = "" <;>
    by_cases h3 : c.workDir = "" <;> simp [applyNameDefaults, h1, h2, h3]

theorem applyNameDefaults_workDir_eq (db d : String) (c : Config) :
    (applyNameDefaults db d c).workDir =
      if c.workDir = "" then "." else c.workDir := by
  by_cases h1 : c.name = "" <;> by_cases h2 : c.projectDir = "" <;>
    by_cases h3 : c.workDir = "" <;> simp [applyNameDefaults, h1, h2, h3]

theorem applyBuildProbe_image (cf ecf : Bool) (c : Config) :
    (applyBuildProbe cf ecf c).image = c.image := by
  by_cases h : (c.image = "" ∧ c.build = none) <;>
    cases cf <;> cases ecf <;> simp [applyBuildProbe, h]

theorem applyBuildProbe_env (cf ecf : Bool) (c : Config) :
    (applyBuildProbe cf ecf c).env = c.env := by
  by_cases h : (c.image = "" ∧ c.build = none) <;>
    cases cf <;> cases ecf <;> simp [applyBuildProbe, h]

theorem applyBuildProbe_engine (cf ecf : Bool) (c : Config) :
    (applyBuildProbe cf ecf c).engine = c.engine := by
  by_cases h : (c.image = "" ∧ c.build = none) <;>
    cases cf <;> cases ecf <;> simp [applyBuildProbe, h]

theorem applyBuildProbe_name (cf ecf : Bool) (c : Config) :
    (applyBuildProbe cf ecf c).name = c.name := by
  by_cases h : (c.image = "" ∧ c.build = none) <;>
    cases cf <;> cases ecf <;> simp [applyBuildProbe, h]

theorem applyBuildProbe_workDir (cf ecf : Bool) (c : Config) :
    (applyBuildProbe cf ecf c).workDir = c.workDir := by
  by_cases h : (c.image = "" ∧ c.build = none) <;>
    cases cf <;> cases ecf <;> simp [applyBuildProbe, h]

theorem applyBuildProbe_projectDir (cf ecf : Bool) (c : Config) :
    (applyBuildProbe cf ecf c).projectDir = c.projectDir := by
  by_cases h : (c.image = "" ∧ c.build = none) <;>
    cases cf <;> cases ecf <;> simp [applyBuildProbe, h]

theorem applyBuildProbe_homeDir (cf ecf : Bool) (c : Config) :
    (applyBuildProbe cf ecf c).homeDir = c.homeDir := by
  by_cases h : (c.image = "" ∧ c.build = none) <;>
    cases cf <;> cases ecf <;> simp [applyBuildProbe, h]

theorem applyBuildProbe_cacheDir (cf ecf : Bool) (c : Config) :
    (applyBuildProbe cf ecf c).cacheDir = c.cacheDir := by
  by_cases h : (c.image = "" ∧ c.build = none) <;>
    cases cf <;> cases ecf <;> simp [applyBuildProbe, h]

theorem applyBuildProbe_build_of_image_ne (cf ecf : Bool) (c : Config)
    (h : c.image ≠ "") : (applyBuildProbe cf ecf c).build = c.build := by
  have hh : ¬(c.image = "" ∧ c.build = none) := fun hc => h hc.1
  simp [applyBuildProbe, hh]

theorem applyBuildProbe_build_no_containerfile (c : Config) :
    (applyBuildProbe false false c).build = c.build := by
  by_cases h : (c.image = "" ∧ c.build = none) <;> simp [applyBuildProbe, h]

theorem applyBuildDefaults_image (c : Config) :
    (applyBuildDefaults c).image = c.image := by
  cases hb : c.build <;> simp [applyBuildDefaults, hb]

theorem applyBuildDefaults_env (c : Config) :
    (applyBuildDefaults c).env = c.env := by
  cases hb : c.build <;> simp [applyBuildDefaults, hb]

theorem applyBuildDefaults_engine (c : Config) :
    (applyBuildDefaults c).engine = c.engine := by
  cases hb : c.build <;> simp [applyBuildDefaults, hb]

theorem applyBuildDefaults_name (c : Config) :
    (applyBuildDefaults c).name = c.name := by
  cases hb : c.build <;> simp [applyBuildDefaults, hb]

theorem applyBuildDefaults_workDir (c : Config) :
    (applyBuildDefaults c).workDir = c.workDir := by
  cases hb : c.build <;> simp [applyBuildDefaults, hb]

theorem applyBuildDefaults_projectDir (c : Config) :
    (applyBuildDefaults c).projectDir = c.projectDir := by
  cases hb : c.build <;> simp [applyBuildDefaults, hb]

theorem applyBuildDefaults_homeDir (c : Config) :
    (applyBuildDefaults c).homeDir = c.homeDir := by
  cases hb : c.build <;> simp [applyBuildDefaults, hb]

theorem applyBuildDefaults_cacheDir (c : Config) :
    (applyBuildDefaults c).cacheDir = c.cacheDir := by
  cases hb : c.build <;> simp [applyBuildDefaults, hb]

theorem applyBuildDefaults_build_isSome (c : Config) :
    (applyBuildDefaults c).build.isSome = c.build.isSome := by
  cases hb : c.build <;> simp [applyBuildDefaults, hb]

theorem applyBuildDefaults_build_none (c : Config) (h : c.build = none) :
    (applyBuildDefaults c).build = none := by
  simp [applyBuildDefaults, h]

theorem applyDirDefaults_image (c : Config) :
    (applyDirDefaults c).image = c.image := by
  by_cases h1 : c.homeDir = "" <;> by_cases h2 : c.cacheDir = "" <;>
    simp [applyDirDefaults, h1, h2]

theorem applyDirDefaults_build (c : Config) :
    (applyDirDefaults c).build = c.build := by
  by_cases h1 : c.homeDir = "" <;> by_cases h2 : c.cacheDir = "" <;>
    simp [applyDirDefaults, h1, h2]

theorem applyDirDefaults_env (c : Config) :
    (applyDirDefaults c).env = c.env := by
  by_cases h1 : c.homeDir = "" <;> by_cases h2 : c.cacheDir = "" <;>
    simp [applyDirDefaults, h1, h2]

theorem applyDirDefaults_engine (c : Config) :
    (applyDirDefaults c).engine = c.engine := by
  by_cases h1 : c.homeDir = "" <;> by_cases h2 : c.cacheDir = "" <;>
    simp [applyDirDefaults, h1, h2]

theorem applyDirDefaults_name (c : Config) :
    (applyDirDefaults c).name = c.name := by
  by_cases h1 : c.homeDir = "" <;> by_cases h2 : c.cacheDir = "" <;>
    simp [applyDirDefaults, h1, h2]

theorem applyDirDefaults_workDir (c : Config) :
    (applyDirDefaults c).workDir = c.workDir := by
  by_cases h1 : c.homeDir = "" <;> by_cases h2 : c.cacheDir = "" <;>
    simp [applyDirDefaults, h1, h2]

theorem applyDirDefaults_projectDir (c : Config) :
    (applyDirDefaults c).projectDir = c.projectDir := by
  by_cases h1 : c.homeDir = "" <;> by_cases h2 : c.cacheDir = "" <;>
    simp [applyDirDefaults, h1, h2]

theorem applyDirDefaults_homeDir_eq (c : Config) :
    (applyDirDefaults c).homeDir =
      if c.homeDir = "" then "./.airlock/home" else c.homeDir := by
  by_cases h1 : c.homeDir = "" <;> by_cases h2 : c.cacheDir = "" <;>
    simp [applyDirDefaults, h1, h2]

theorem applyDirDefaults_cacheDir_eq (c : Config) :
    (applyDirDefaults c).cacheDir =
      if c.cacheDir = "" then "./.airlock/cache" else c.cacheDir := by
  by_cases h1 : c.homeDir = "" <;> by_cases h2 : c.cacheDir = "" <;>
    simp [applyDirDefaults, h1, h2]

/-! ## Lookup behaviour of the env merge -/

/-- First-defined choice on optional strings. -/
def orO (a b : Option String) : Option String :=
  match a with
  | some v => some v
  | none => b

/-- The value the last entry of the list gives to a key, if any entry
mentions it at all. -/
def lastVal : List (String × String) → String → Option String
  | [], _ => none
  | kv :: rest, k => orO (lastVal rest k) (if kv.1 = k then some kv.2 else none)

theorem orO_none_right (a : Option String) : orO a none = a := by
  cases a <;> rfl

theorem orO_assoc (a b c : Option String) :
    orO (orO a b) c = orO a (orO b c) := by
  cases a <;> cases b <;> rfl

theorem envLookup_applyEnvEntries (entries : List (String × String))
    (init : List (String × String)) (k : String) :
    envLookup k (applyEnvEntries init entries) =
      orO (lastVal entries k) (envLookup k init) := by
  induction entries generalizing init with
  | nil => simp [applyEnvEntries, lastVal, orO]
  | cons kv rest ih =>
    have hstep : applyEnvEntries init (kv :: rest) =
        applyEnvEntries (envInsert kv.1 kv.2 init) rest := rfl
    rw [hstep, ih]
    have hlook : envLookup k (envInsert kv.1 kv.2 init) =
        if kv.1 = k then some kv.2 else envLookup k init := by
      by_cases h : kv.1 = k
      · subst h
        simp [envLookup_envInsert_self]
      · simp [h, envLookup_envInsert_ne k kv.1 kv.2 init (fun hh => h hh.symm)]
    rw [hlook]
    show _ = orO (orO (lastVal rest k) (if kv.1 = k then some kv.2 else none))
      (envLookup k init)
    rw [orO_assoc]
    by_cases h : kv.1 = k <;> simp [h, orO]

theorem mergeLayer_env (c : Config) (l : ConfigLayer) :
    (mergeLayer c l).env = applyEnvEntries c.env (l.env.getD []) := by
  cases h : l.env <;> simp [mergeLayer, applyEnvEntries, h]

/-! ## Decomposition lemmas for Load -/

/-- The configuration obtained from the base document and the optional
local-override document, before any defaulting. -/
def mergedConfig (base : ConfigLayer) (localLayer : Option ConfigLayer) :
    Config :=
  match localLayer with
  | some l => mergeLayer (mergeLayer emptyConfig base) l
  | none => mergeLayer emptyConfig base

theorem Load_eq (base : ConfigLayer) (localLayer : Option ConfigLayer)
    (dirBase dir : String) (cf ecf : Bool) :
    Load base localLayer dirBase dir cf ecf =
      loadResolve cf ecf
        (applyNameDefaults dirBase dir (mergedConfig base localLayer)) := by
  cases localLayer <;> rfl

theorem loadResolve_ok (cf ecf : Bool) (c c' : Config)
    (h : loadResolve cf ecf c = Except.ok c') :
    c' = applyDirDefaults (applyBuildDefaults (applyBuildProbe cf ecf c)) ∧
      ¬(c.image ≠ "" ∧ c.build.isSome = true) := by
  simp only [loadResolve] at h
  split at h
  · exact absurd h (by simp)
  · rename_i hcond
    split at h
    · exact absurd h (by simp)
    · simp only [Except.ok.injEq] at h
      exact ⟨h.symm, hcond⟩

/-! ## C2: image and build are mutually exclusive after Load -/

/-- C2: a configuration returned by Load never has both a non-empty
image and a build section, and a base file that explicitly sets a
non-empty image together with a build section makes Load fail with the
mutual-exclusion error. -/
theorem Load_image_build_exclusive (base : ConfigLayer)
    (localLayer : Option ConfigLayer) (dirBase dir : String) (cf ecf : Bool) :
    (∀ c', Load base localLayer dirBase dir cf ecf = Except.ok c' →
      ¬(c'.image ≠ "" ∧ c'.build.isSome = true)) ∧
    (∀ i bl, base.image = some i → i ≠ "" → base.build = some bl →
      localLayer = none →
      Load base localLayer dirBase dir cf ecf =
        Except.error "Only one of either Image or Build can be configured") := by
  constructor
  · intro c' h
    rw [Load_eq] at h
    obtain ⟨hc', hcond⟩ := loadResolve_ok _ _ _ _ h
    subst hc'
    rintro ⟨hi, hb⟩
    rw [applyDirDefaults_image, applyBuildDefaults_image,
      applyBuildProbe_image] at hi
    rw [applyDirDefaults_build, applyBuildDefaults_build_isSome] at hb
    have hbn : (applyNameDefaults dirBase dir
        (mergedConfig base localLayer)).build = none := by
      cases hx : (applyNameDefaults dirBase dir
          (mergedConfig base localLayer)).build
      · rfl
      · exact absurd ⟨hi, by simp [hx]⟩ hcond
    rw [applyBuildProbe_build_of_image_ne _ _ _ hi, hbn] at hb
    simp at hb
  · intro i bl hbase hi hbuild hlocal
    subst hlocal
    rw [Load_eq]
    have himg : (applyNameDefaults dirBase dir
        (mergedConfig base none)).image = i := by
      rw [applyNameDefaults_image]
      simp [mergedConfig, mergeLayer, hbase]
    have hbld : (applyNameDefaults dirBase dir
        (mergedConfig base none)).build.isSome = true := by
      rw [applyNameDefaults_build]
      simp [mergedConfig, mergeLayer, hbuild]
    simp only [loadResolve]
    rw [if_pos ⟨by rw [himg]; exact hi, hbld⟩]

/-- Witness for C2 at a concrete base file that sets both image and
build: Load rejects it. -/
theorem Load_image_build_exclusive_witness :
    Load { name := some "proj", image := some "img",
           build := some { tag := some "t" } } none "p" "/p" false false =
      Except.error "Only one of either Image or Build can be configured" :=
  (Load_image_build_exclusive
    { name := some "proj", image := some "img", build := some { tag := some "t" } }
    none "p" "/p" false false).2 "img" { tag := some "t" } rfl (by decide) rfl rfl

/-! ## C3: the local-override layer wins on scalars and merges env -/

/-- C3: when Load succeeds on a base document plus a local-override
document, every scalar key present in the override determines the
resolved field (non-empty values, so that the defaulting stage does not
fire), and the resolved env map is the key-wise merge of both layers
with the override winning; in particular the documented A/B/C scenario
resolves to the env map A=1, B=3, C=4. -/
theorem Load_override_merge (base l : ConfigLayer) (dirBase dir : String)
    (cf ecf : Bool) :
    (∀ c', Load base (some l) dirBase dir cf ecf = Except.ok c' →
      (∀ v, l.image = some v → c'.image = v) ∧
      (∀ v, l.engine = some v → c'.engine = v) ∧
      (∀ v, l.name = some v → v ≠ "" → c'.name = v) ∧
      (∀ v, l.projectDir = some v → v ≠ "" → c'.projectDir = v) ∧
      (∀ v, l.workDir = some v → v ≠ "" → c'.workDir = v) ∧
      (∀ v, l.homeDir = some v → v ≠ "" → c'.homeDir = v) ∧
      (∀ v, l.cacheDir = some v → v ≠ "" → c'.cacheDir = v) ∧
      (∀ k, envLookup k c'.env =
        orO (lastVal (l.env.getD []) k) (lastVal (base.env.getD []) k))) ∧
    Load { name := some "p", env := some [("A", "1"), ("B", "2")] }
        (some { env := some [("B", "3"), ("C", "4")] }) "p" "/p" false false =
      Except.ok { name := "p", projectDir := "/p", workDir := ".",
                  image := "", build := none, engine := "",
                  homeDir := "./.airlock/home",
                  cacheDir := "./.airlock/cache", mounts := [],
                  env := [("A", "1"), ("B", "3"), ("C", "4")] } := by
  constructor
  · intro c' h
    rw [Load_eq] at h
    obtain ⟨hc', hcond⟩ := loadResolve_ok _ _ _ _ h
    subst hc'
    refine ⟨?_, ?_, ?_, ?_, ?_, ?_, ?_, ?_⟩
    · intro v hv
      rw [applyDirDefaults_image, applyBuildDefaults_image,
        applyBuildProbe_image, applyNameDefaults_image]
      simp [mergedConfig, mergeLayer, hv]
    · intro v hv
      rw [applyDirDefaults_engine, applyBuildDefaults_engine,
        applyBuildProbe_engine, applyNameDefaults_engine]
      simp [mergedConfig, mergeLayer, hv]
    · intro v hv hne
      rw [applyDirDefaults_name, applyBuildDefaults_name,
        applyBuildProbe_name, applyNameDefaults_name_eq]
      have hm : (mergedConfig base (some l)).name = v := by
        simp [mergedConfig, mergeLayer, hv]
      rw [hm, if_neg hne]
    · intro v hv hne
      rw [applyDirDefaults_projectDir, applyBuildDefaults_projectDir,
        applyBuildProbe_projectDir, applyNameDefaults_projectDir_eq]
      have hm : (mergedConfig base (some l)).projectDir = v := by
        simp [mergedConfig, mergeLayer, hv]
      rw [hm, if_neg hne]
    · intro v hv hne
      rw [applyDirDefaults_workDir, applyBuildDefaults_workDir,
        applyBuildProbe_workDir, applyNameDefaults_workDir_eq]
      have hm : (mergedConfig base (some l)).workDir = v := by
        simp [mergedConfig, mergeLayer, hv]
      rw [hm, if_neg hne]
    · intro v hv hne
      rw [applyDirDefaults_homeDir_eq, applyBuildDefaults_homeDir,
        applyBuildProbe_homeDir, applyNameDefaults_homeDir]
      have hm : (mergedConfig base (some l)).homeDir = v := by
        simp [mergedConfig, mergeLayer, hv]
      rw [hm, if_neg hne]
    · intro v hv hne
      rw [applyDirDefaults_cacheDir_eq, applyBuildDefaults_cacheDir,
        applyBuildProbe_cacheDir, applyNameDefaults_cacheDir]
      have hm : (mergedConfig base (some l)).cacheDir = v := by
        simp [mergedConfig, mergeLayer, hv]
      rw [hm, if_neg hne]
    · intro k
      have henv : (applyDirDefaults (applyBuildDefaults (applyBuildProbe cf ecf
          (applyNameDefaults dirBase dir (mergedConfig base (some l)))))).env =
          (mergedConfig base (some l)).env := by
        rw [applyDirDefaults_env, applyBuildDefaults_env,
          applyBuildProbe_env, applyNameDefaults_env]
      rw [henv]
      show envLookup k (mergeLayer (mergeLayer emptyConfig base) l).env = _
      rw [mergeLayer_env, envLookup_applyEnvEntries, mergeLayer_env,
        envLookup_applyEnvEntries]
      simp [emptyConfig, envLookup, orO_none_right]
  · rfl

/-- Witness for C3 at a concrete pair of layers: the override wins on
the name and workdir scalars and on env key B, while base-only env key
A survives. -/
theorem Load_override_merge_witness :
    ({ name := "loc", projectDir := "/p", workDir := "/w", image := "",
       build := none, engine := "", homeDir := "./.airlock/home",
       cacheDir := "./.airlock/cache", mounts := [],
       env := [("A", "1"), ("B", "3")] } : Config).name = "loc" ∧
    ({ name := "loc", projectDir := "/p", workDir := "/w", image := "",
       build := none, engine := "", homeDir := "./.airlock/home",
       cacheDir := "./.airlock/cache", mounts := [],
       env := [("A", "1"), ("B", "3")] } : Config).workDir = "/w" ∧
    envLookup "B" [("A", "1"), ("B", "3")] = some "3" ∧
    envLookup "A" [("A", "1"), ("B", "3")] = some "1" := by
  have H := (Load_override_merge
    { name := some "base", workDir := some "/basew",
      env := some [("A", "1"), ("B", "2")] }
    { name := some "loc", workDir := some "/w", env := some [("B", "3")] }
    "p" "/p" false false).1
    { name := "loc", projectDir := "/p", workDir := "/w", image := "",
      build := none, engine := "", homeDir := "./.airlock/home",
      cacheDir := "./.airlock/cache", mounts := [],
      env := [("A", "1"), ("B", "3")] } rfl
  exact ⟨H.2.2.1 "loc" rfl (by decide), H.2.2.2.2.1 "/w" rfl (by decide),
    (H.2.2.2.2.2.2.2 "B").trans (by decide),
    (H.2.2.2.2.2.2.2 "A").trans (by decide)⟩

/-! ## C7: no fallback image in the resolved configuration -/

/-- C7 (amended): when the configuration sets neither image nor build,
no local override is present and no default Containerfile exists
(neither Containerfile nor env/Containerfile), a successful Load leaves
the image empty and the build section absent; no fallback published
image reference is applied. -/
theorem Load_no_fallback_image (base : ConfigLayer) (dirBase dir : String)
    (c' : Config) (hi : base.image = none) (hb : base.build = none)
    (h : Load base none dirBase dir false false = Except.ok c') :
    c'.image = "" ∧ c'.build = none := by
  rw [Load_eq] at h
  obtain ⟨hc', hcond⟩ := loadResolve_ok _ _ _ _ h
  subst hc'
  have hbn : (applyNameDefaults dirBase dir
      (mergedConfig base none)).build = none := by
    rw [applyNameDefaults_build]
    simp [mergedConfig, mergeLayer, emptyConfig, hb]
  constructor
  · rw [applyDirDefaults_image, applyBuildDefaults_image,
      applyBuildProbe_image, applyNameDefaults_image]
    simp [mergedConfig, mergeLayer, hi, emptyConfig]
  · rw [applyDirDefaults_build]
    apply applyBuildDefaults_build_none
    rw [applyBuildProbe_build_no_containerfile, hbn]

/-- Counterexample for C7 as stated: with neither image nor build set
and no Containerfile present, Load succeeds with an empty image and no
build section, not with the fixed published fallback reference
ghcr.io/donjaime/airlock-base:latest. -/
theorem Load_no_fallback_image_counterexample :
    Load { name := some "p" } none "p" "/p" false false =
      Except.ok { name := "p", projectDir := "/p", workDir := ".",
                  image := "", build := none, engine := "",
                  homeDir := "./.airlock/home",
                  cacheDir := "./.airlock/cache", mounts := [], env := [] } ∧
    ("" : String) ≠ "ghcr.io/donjaime/airlock-base:latest" := by
  exact ⟨rfl, by decide⟩

/-- Witness for C7 (amended) at a concrete empty base document. -/
theorem Load_no_fallback_image_witness :
    ({ name := "q", projectDir := "/q", workDir := ".", image := "",
       build := none, engine := "", homeDir := "./.airlock/home",
       cacheDir := "./.airlock/cache", mounts := [],
       env := [] } : Config).image = "" ∧
    ({ name := "q", projectDir := "/q", workDir := ".", image := "",
       build := none, engine := "", homeDir := "./.airlock/home",
       cacheDir := "./.airlock/cache", mounts := [],
       env := [] } : Config).build = none :=
  Load_no_fallback_image { name := some "q" } "q" "/q"
    { name := "q", projectDir := "/q", workDir := ".", image := "",
      build := none, engine := "", homeDir := "./.airlock/home",
      cacheDir := "./.airlock/cache", mounts := [], env := [] }
    rfl rfl rfl

/-! ## Image inspection (internal/container, Runner.inspectImage) -/

/-- UserConfig from internal/container: the identity derived from image
inspection. -/
structure UserConfig where
  name : String
  home : String
  workDir : String
  env : List String
deriving Repr, DecidableEq

/-- The user-derivation logic of Runner.inspectImage, applied to the
parsed fields of a successful image inspection (declared user, working
directory and environment list).  The engine invocation and JSON parsing
are the external collaborator; this is the code run after them. -/
def inspectUser (userStr workdir : String) (env : List String) : UserConfig :=
  let userStr := if userStr = "" then "1000" else userStr
  let u : UserConfig := { name := userStr, home := "", workDir := workdir,
                          env := env }
  if u.name = "root" then { u with home := "/root" }
  else if u.name ≠ "" then { u with home := "/home/" ++ u.name }
  else u

/-! ## C8: resolved sandbox user and home derivation -/

/-- C8: an empty declared image user defaults to the fixed string 1000;
a declared (or defaulted) user equal to root yields home /root; any
other user U yields home /home/U. -/
theorem inspectUser_spec (userStr workdir : String) (env : List String) :
    (userStr = "" →
      (inspectUser userStr workdir env).name = "1000" ∧
      (inspectUser userStr workdir env).home = "/home/1000") ∧
    (userStr = "root" → (inspectUser userStr workdir env).home = "/root") ∧
    (userStr ≠ "" → userStr ≠ "root" →
      (inspectUser userStr workdir env).name = userStr ∧
      (inspectUser userStr workdir env).home = "/home/" ++ userStr) := by
  refine ⟨?_, ?_, ?_⟩
  · intro h
    subst h
    exact ⟨rfl, rfl⟩
  · intro h
    subst h
    rfl
  · intro h1 h2
    simp only [inspectUser, if_neg h1]
    rw [if_neg]
    · rw [if_pos]
      · exact ⟨rfl, rfl⟩
      · simpa using h1
    · simpa using h2

/-- Witness for C8 at the three concrete user kinds: empty, root and an
ordinary user name. -/
theorem inspectUser_spec_witness :
    ((inspectUser "" "/w" []).name = "1000" ∧
      (inspectUser "" "/w" []).home = "/home/1000") ∧
    (inspectUser "root" "/w" []).home = "/root" ∧
    ((inspectUser "alice" "/w" []).name = "alice" ∧
      (inspectUser "alice" "/w" []).home = "/home/" ++ "alice") :=
  ⟨(inspectUser_spec "" "/w" []).1 rfl,
    (inspectUser_spec "root" "/w" []).2.1 rfl,
    (inspectUser_spec "alice" "/w" []).2.2 (by decide) (by decide)⟩

/-! ## Environment composition (Runner.createContainer) -/

/-- The image-default pass of the envMap construction in
Runner.createContainer: each entry of the image environment list is
split at the first equals sign and written into the map; entries with
no equals sign are skipped (SplitN yields a single part). -/
def parseImageEnv (entries : List String) : List (String × String) :=
  entries.foldl
    (fun acc e =>
      match splitOnce e "=" with
      | some kv => envInsert kv.1 kv.2 acc
      | none => acc)
    []

/-- The envMap construction of Runner.createContainer: image defaults
first, then the configuration env map, then the five airlock-specific
overrides derived from the resolved user. -/
def composeEnv (cfg : Config) (u : UserConfig) : List (String × String) :=
  let envMap := parseImageEnv u.env
  let envMap := cfg.env.foldl (fun acc kv => envInsert kv.1 kv.2 acc) envMap
  let home := u.home
  let envMap := envInsert "HOME" home envMap
  let envMap := envInsert "XDG_CACHE_HOME" (home ++ "/.cache") envMap
  let envMap := envInsert "XDG_CONFIG_HOME" (home ++ "/.config") envMap
  let envMap := envInsert "XDG_DATA_HOME" (home ++ "/.local/share") envMap
  envInsert "WORKDIR" u.workDir envMap

/-! ## C4: identity-derived environment variables always win -/

/-- C4: for every configuration and resolved user, the composed
container environment binds HOME, XDG_CACHE_HOME, XDG_CONFIG_HOME and
XDG_DATA_HOME to the resolved user home and its .cache, .config and
.local/share subdirectories, whatever conflicting values the
configuration env map or the image default environment may contain. -/
theorem composeEnv_identity_overrides (cfg : Config) (u : UserConfig) :
    envLookup "HOME" (composeEnv cfg u) = some u.home ∧
    envLookup "XDG_CACHE_HOME" (composeEnv cfg u) =
      some (u.home ++ "/.cache") ∧
    envLookup "XDG_CONFIG_HOME" (composeEnv cfg u) =
      some (u.home ++ "/.config") ∧
    envLookup "XDG_DATA_HOME" (composeEnv cfg u) =
      some (u.home ++ "/.local/share") := by
  simp only [composeEnv]
  refine ⟨?_, ?_, ?_, ?_⟩
  · rw [envLookup_envInsert_ne _ _ _ _ (by decide),
      envLookup_envInsert_ne _ _ _ _ (by decide),
      envLookup_envInsert_ne _ _ _ _ (by decide),
      envLookup_envInsert_ne _ _ _ _ (by decide),
      envLookup_envInsert_self]
  · rw [envLookup_envInsert_ne _ _ _ _ (by decide),
      envLookup_envInsert_ne _ _ _ _ (by decide),
      envLookup_envInsert_ne _ _ _ _ (by decide),
      envLookup_envInsert_self]
  · rw [envLookup_envInsert_ne _ _ _ _ (by decide),
      envLookup_envInsert_ne _ _ _ _ (by decide),
      envLookup_envInsert_self]
  · rw [envLookup_envInsert_ne _ _ _ _ (by decide),
      envLookup_envInsert_self]

/-! ## Mount synthesis (Runner.createContainer) -/

/-- One -v argument of the synthesized engine invocation: the volume
specification string passed after -v, together with the in-container
target path it binds (recorded for analysis; the engine receives only
the specification string). -/
structure MountEntry where
  spec : String
  target : String
deriving Repr, DecidableEq

/-- The default workdir mount: the project working tree bound to the
in-container working directory. -/
def workdirEntry (u : UserConfig) (workDirHost : String) : MountEntry :=
  ⟨workDirHost ++ ":" ++ u.workDir ++ ":Z", u.workDir⟩

/-- The home mount: the host home state directory bound to the resolved
user home. -/
def homeEntry (u : UserConfig) (homeHost : String) : MountEntry :=
  ⟨homeHost ++ ":" ++ u.home ++ ":Z", u.home⟩

/-- The cache mount: the host cache directory bound to .cache under the
resolved user home. -/
def cacheEntry (u : UserConfig) (cacheHost : String) : MountEntry :=
  ⟨cacheHost ++ ":" ++ u.home ++ "/.cache:Z", u.home ++ "/.cache"⟩

/-- The masking mount: an anonymous volume bound over the .airlock path
under the in-container working directory. -/
def maskEntry (u : UserConfig) : MountEntry :=
  ⟨u.workDir ++ "/.airlock", u.workDir ++ "/.airlock"⟩

/-- The -v argument synthesized for one explicit configured mount:
source resolved against the project root, mode defaulting to rw, with
the Z relabelling suffix. -/
def mountEntryOf (absProjectDir : String) (m : Mount) : MountEntry :=
  let src := resolveHostPath absProjectDir m.source
  let mode := if m.mode = "" then "rw" else m.mode
  ⟨src ++ ":" ++ m.target ++ ":" ++ mode ++ ",Z", m.target⟩

/-- One iteration of the explicit-mount loop in Runner.createContainer:
append the -v argument for the mount and record whether any explicit
mount so far targets the resolved working directory. -/
def mountStep (absProjectDir : String) (u : UserConfig)
    (acc : List MountEntry × Bool) (m : Mount) : List MountEntry × Bool :=
  (acc.1 ++ [mountEntryOf absProjectDir m],
    acc.2 || (m.target == u.workDir))

/-- The mountArgs construction of Runner.createContainer: home and
cache mounts first, then the explicit configured mounts in order, then
the default workdir mount prepended at the front unless an explicit
mount already targets the working directory, and finally the masking
mount appended last. -/
def mountPlan (cfg : Config) (u : UserConfig)
    (absProjectDir homeHost cacheHost workDirHost : String) :
    List MountEntry :=
  let init := [homeEntry u homeHost, cacheEntry u cacheHost]
  let res := cfg.mounts.foldl (mountStep absProjectDir u) (init, false)
  let args := if !res.2 then workdirEntry u workDirHost :: res.1 else res.1
  args ++ [maskEntry u]

/-- The number of -v arguments in the list that bind the given
in-container target path. -/
def countTarget (t : String) (l : List MountEntry) : Nat :=
  l.countP (fun e => e.target == t)

theorem mountEntryOf_target (a : String) (m : Mount) :
    (mountEntryOf a m).target = m.target := rfl

theorem mountStep_foldl (a : String) (u : UserConfig) (ms : List Mount)
    (init : List MountEntry) (b : Bool) :
    ms.foldl (mountStep a u) (init, b) =
      (init ++ ms.map (mountEntryOf a),
        b || ms.any (fun m => m.target == u.workDir)) := by
  induction ms generalizing init b with
  | nil => simp
  | cons m rest ih =>
    simp only [List.foldl_cons, mountStep, List.map_cons, List.any_cons]
    rw [ih]
    simp [List.append_assoc, Bool.or_assoc]

theorem stringData_append (s t : String) : (s ++ t).data = s.data ++ t.data := by
  cases s
  cases t
  rfl

theorem maskTarget_ne (s : String) : s ++ "/.airlock" ≠ s := by
  intro h
  have hl : (s ++ "/.airlock").data.length = s.data.length := by rw [h]
  rw [stringData_append, List.length_append] at hl
  have h9 : ("/.airlock" : String).data.length = 9 := rfl
  omega

/-- Closed form of the synthesized mount list, shared by the ordering
and suppression theorems. -/
theorem mountPlan_closed_form (cfg : Config) (u : UserConfig)
    (a hh ch wh : String) :
    mountPlan cfg u a hh ch wh =
      ((if cfg.mounts.any (fun m => m.target == u.workDir) then []
        else [workdirEntry u wh]) ++
       [homeEntry u hh, cacheEntry u ch] ++
       cfg.mounts.map (mountEntryOf a)) ++ [maskEntry u] := by
  simp only [mountPlan, mountStep_foldl]
  cases hany : cfg.mounts.any (fun m => m.target == u.workDir) <;> simp [hany]

/-! ## C5: the masking mount is always last -/

/-- C5: whatever explicit mounts the configuration declares, the
synthesized mount list is the optional workdir mount, then the home and
cache mounts, then the explicit mounts in order, and the masking entry
over the .airlock path is always the final -v argument, after all of
them. -/
theorem mountPlan_mask_last (cfg : Config) (u : UserConfig)
    (a hh ch wh : String) :
    mountPlan cfg u a hh ch wh =
      ((if cfg.mounts.any (fun m => m.target == u.workDir) then []
        else [workdirEntry u wh]) ++
       [homeEntry u hh, cacheEntry u ch] ++
       cfg.mounts.map (mountEntryOf a)) ++ [maskEntry u] :=
  mountPlan_closed_form cfg u a hh ch wh

/-! ## C6: workdir-mount suppression (amended) -/

/-- C6 (amended): when some explicit mount targets the resolved working
directory the default workdir mount is omitted, and the -v arguments
binding that target are exactly those of the explicit mounts targeting
it plus the implicit home and cache mounts in case their targets
coincide with it — exactly one when a single explicit mount targets it
and the home and cache targets differ from it; when no explicit mount
targets the working directory the workdir mount is included and placed
first. -/
theorem mountPlan_workdir_suppression (cfg : Config) (u : UserConfig)
    (a hh ch wh : String) :
    (cfg.mounts.any (fun m => m.target == u.workDir) = true →
      mountPlan cfg u a hh ch wh =
        ([homeEntry u hh, cacheEntry u ch] ++
          cfg.mounts.map (mountEntryOf a)) ++ [maskEntry u] ∧
      countTarget u.workDir (mountPlan cfg u a hh ch wh) =
        cfg.mounts.countP (fun m => m.target == u.workDir) +
          ((if u.home == u.workDir then 1 else 0) +
           (if u.home ++ "/.cache" == u.workDir then 1 else 0))) ∧
    (cfg.mounts.any (fun m => m.target == u.workDir) = false →
      mountPlan cfg u a hh ch wh =
        workdirEntry u wh ::
          (([homeEntry u hh, cacheEntry u ch] ++
            cfg.mounts.map (mountEntryOf a)) ++ [maskEntry u])) := by
  have hmask : (u.workDir ++ "/.airlock" == u.workDir) = false := by
    have hne := maskTarget_ne u.workDir
    simpa using hne
  constructor
  · intro hany
    constructor
    · rw [mountPlan_closed_form, hany]
      simp
    · rw [mountPlan_closed_form, hany]
      simp only [if_pos, List.nil_append, countTarget, List.countP_append,
        List.countP_cons, List.countP_nil, List.countP_map]
      have hm : ∀ ms : List Mount,
          List.countP ((fun e => e.target == u.workDir) ∘ mountEntryOf a) ms =
          List.countP (fun m => m.target == u.workDir) ms := by
        intro ms
        apply List.countP_congr
        intro m _
        simp [Function.comp, mountEntryOf_target]
      rw [hm]
      simp only [homeEntry, cacheEntry, maskEntry, hmask]
      simp
      omega
  · intro hany
    rw [mountPlan_closed_form, hany]
    simp

/-- Counterexample for C6 as stated: a configuration that declares two
explicit mounts both targeting the working directory.  Some explicit
mount targets the workdir path, yet the synthesized list carries two -v
arguments for that target, not exactly one. -/
theorem mountPlan_workdir_suppression_counterexample :
    (([{ source := "/a", target := "/w", mode := "" },
       { source := "/b", target := "/w", mode := "" }] : List Mount).any
        (fun m => m.target == "/w")) = true ∧
    countTarget "/w"
      (mountPlan
        { name := "p", projectDir := "/p", workDir := ".", image := "i",
          build := none, engine := "", homeDir := "", cacheDir := "",
          mounts := [{ source := "/a", target := "/w", mode := "" },
                     { source := "/b", target := "/w", mode := "" }],
          env := [] }
        { name := "u", home := "/h", workDir := "/w", env := [] }
        "/p" "/ph" "/pc" "/pw") = 2 ∧
    countTarget "/w"
      (mountPlan
        { name := "p", projectDir := "/p", workDir := ".", image := "i",
          build := none, engine := "", homeDir := "", cacheDir := "",
          mounts := [{ source := "/a", target := "/w", mode := "" },
                     { source := "/b", target := "/w", mode := "" }],
          env := [] }
        { name := "u", home := "/h", workDir := "/w", env := [] }
        "/p" "/ph" "/pc" "/pw") ≠ 1 := by
  refine ⟨rfl, rfl, by decide⟩

/-- Witness for C6 (amended) at two concrete configurations: one whose
single explicit mount targets the working directory (one -v argument
for that target), and one whose explicit mount targets another path
(workdir mount placed first). -/
theorem mountPlan_workdir_suppression_witness :
    countTarget "/w"
      (mountPlan
        { name := "p", projectDir := "/p", workDir := ".", image := "i",
          build := none, engine := "", homeDir := "", cacheDir := "",
          mounts := [{ source := "/a", target := "/w", mode := "ro" }],
          env := [] }
        { name := "u", home := "/h", workDir := "/w", env := [] }
        "/p" "/ph" "/pc" "/pw") = 1 ∧
    mountPlan
        { name := "p", projectDir := "/p", workDir := ".", image := "i",
          build := none, engine := "", homeDir := "", cacheDir := "",
          mounts := [{ source := "/x", target := "/y", mode := "ro" }],
          env := [] }
        { name := "u", home := "/h", workDir := "/w", env := [] }
        "/p" "/ph" "/pc" "/pw" =
      workdirEntry { name := "u", home := "/h", workDir := "/w", env := [] }
          "/pw" ::
        (([homeEntry { name := "u", home := "/h", workDir := "/w", env := [] }
             "/ph",
           cacheEntry { name := "u", home := "/h", workDir := "/w", env := [] }
             "/pc"] ++
          [mountEntryOf "/p" { source := "/x", target := "/y", mode := "ro" }]) ++
         [maskEntry { name := "u", home := "/h", workDir := "/w", env := [] }]) := by
  constructor
  · exact (((mountPlan_workdir_suppression
      { name := "p", projectDir := "/p", workDir := ".", image := "i",
        build := none, engine := "", homeDir := "", cacheDir := "",
        mounts := [{ source := "/a", target := "/w", mode := "ro" }],
        env := [] }
      { name := "u", home := "/h", workDir := "/w", env := [] }
      "/p" "/ph" "/pc" "/pw").1 rfl).2).trans (by decide)
  · exact (mountPlan_workdir_suppression
      { name := "p", projectDir := "/p", workDir := ".", image := "i",
        build := none, engine := "", homeDir := "", cacheDir := "",
        mounts := [{ source := "/x", target := "/y", mode := "ro" }],
        env := [] }
      { name := "u", home := "/h", workDir := "/w", env := [] }
      "/p" "/ph" "/pc" "/pw").2 rfl

/-! ## Lifecycle controller (internal/container, Runner) -/

/-- The observable container state, read through engine queries: does a
container with the derived name exist, and is it running. -/
structure EngineState where
  present : Bool
  running : Bool
deriving Repr, DecidableEq

/-- The state-changing engine invocations the controller issues. -/
inductive EngineCmd where
  | build (tag : String)
  | run (name image : String) (env : List (String × String))
      (mounts : List MountEntry)
  | start (name : String)
  | stop (name : String)
  | rm (name : String)
deriving Repr, DecidableEq

/-- containerName from internal/container. -/
def containerName (cfg : Config) : String :=
  "airlock-" ++ cfg.name

/-- The image selection appearing in Up, Enter, Exec and
createContainer: the build tag when a build section is present, the
configured image otherwise. -/
def imageOf (cfg : Config) : String :=
  match cfg.build with
  | some b => b.tag
  | none => cfg.image

/-- The run -d invocation synthesized by Runner.createContainer,
carrying the composed environment and the synthesized mount list. -/
def createContainerCmd (cfg : Config) (u : UserConfig)
    (absProjectDir homeHost cacheHost workDirHost : String) : EngineCmd :=
  EngineCmd.run (containerName cfg) (imageOf cfg) (composeEnv cfg u)
    (mountPlan cfg u absProjectDir homeHost cacheHost workDirHost)

/-- Runner.Up as a transition on the observable container state,
assuming every engine invocation succeeds (the premise of the
idempotence claim): build the image when a build section is set,
resolve the host directories, create the container (run -d, which
leaves it existing and running) when absent, then start it when it is
not running.  Image inspection and the host mkdir calls change no
container state.  The returned list collects the state-changing
commands issued, in order. -/
def up (cfg : Config) (u : UserConfig) (absProjectDir : String)
    (s : EngineState) : EngineState × List EngineCmd :=
  let buildCmds : List EngineCmd := match cfg.build with
    | some b => [EngineCmd.build b.tag]
    | none => []
  let homeHost := resolveHostPath absProjectDir cfg.homeDir
  let cacheHost := resolveHostPath absProjectDir cfg.cacheDir
  let workDirHost := resolveHostPath absProjectDir cfg.workDir
  let createRes :=
    if !s.present then
      ((⟨true, true⟩ : EngineState),
        [createContainerCmd cfg u absProjectDir homeHost cacheHost workDirHost])
    else (s, ([] : List EngineCmd))
  let s1 := createRes.1
  if !s1.running then
    ({ s1 with running := true },
      buildCmds ++ createRes.2 ++ [EngineCmd.start (containerName cfg)])
  else (s1, buildCmds ++ createRes.2)

/-- Recognizer for the container-create (run) command. -/
def isRunCmd : EngineCmd → Bool
  | EngineCmd.run .. => true
  | _ => false

/-! ## C1: Up is idempotent -/

/-- C1: from any observed container state, Up leaves the container
running; calling Up again with no external state change leaves it
running and the second call issues no run (container-create) command. -/
theorem up_twice_idempotent (cfg : Config) (u : UserConfig)
    (absProjectDir : String) (s : EngineState) :
    ((up cfg u absProjectDir s).1).running = true ∧
    ((up cfg u absProjectDir (up cfg u absProjectDir s).1).1).running = true ∧
    ((up cfg u absProjectDir (up cfg u absProjectDir s).1).2).any isRunCmd
      = false := by
  rcases s with ⟨p, r⟩
  cases p <;> cases r <;> cases hb : cfg.build <;>
    simp [up, isRunCmd, hb]

/-! ## Down (Runner.Down) -/

/-- The target-name derivation of Runner.Down: an empty name targets
the current project container, a name without the sandbox prefix gets
it prepended, a prefixed name is used as is. -/
def downTarget (cfg : Config) (name : String) : String :=
  if name = "" then containerName cfg
  else if hasPre name "airlock-" = false then "airlock-" ++ name
  else name

/-- Runner.Down: issue stop and rm -f on the derived target; the
results of both engine invocations are received and discarded, and the
function returns success unconditionally. -/
def down (cfg : Config) (name : String)
    (stopResult rmResult : Except String Unit) :
    Except String Unit × List EngineCmd :=
  let target := downTarget cfg name
  let _ := stopResult
  let _ := rmResult
  (Except.ok (), [EngineCmd.stop target, EngineCmd.rm target])

theorem isPrefixOf_append_self (l t : List Char) :
    l.isPrefixOf (l ++ t) = true := by
  induction l with
  | nil => simp [List.isPrefixOf]
  | cons a rest ih => simp [List.isPrefixOf, ih]

theorem hasPre_append (p s : String) : hasPre (p ++ s) p = true := by
  rw [hasPre, stringData_append]
  exact isPrefixOf_append_self _ _

/-! ## C9: Down always succeeds -/

/-- C9: Down returns success whatever the results of the underlying
stop and rm invocations are, and an empty target name makes it act on
the current project container name. -/
theorem down_best_effort (cfg : Config) (name : String)
    (stopResult rmResult : Except String Unit) :
    (down cfg name stopResult rmResult).1 = Except.ok () ∧
    (name = "" →
      (down cfg name stopResult rmResult).2 =
        [EngineCmd.stop (containerName cfg),
         EngineCmd.rm (containerName cfg)]) := by
  refine ⟨rfl, ?_⟩
  intro h
  subst h
  simp [down, downTarget]

/-- Witness for C9: Down on the current project container returns
success even though both engine invocations fail. -/
theorem down_best_effort_witness :
    (down { name := "p", projectDir := "/p", workDir := ".", image := "i",
            build := none, engine := "", homeDir := "", cacheDir := "",
            mounts := [], env := [] } ""
        (Except.error "no such container")
        (Except.error "no such container")).1 = Except.ok () ∧
    (down { name := "p", projectDir := "/p", workDir := ".", image := "i",
            build := none, engine := "", homeDir := "", cacheDir := "",
            mounts := [], env := [] } ""
        (Except.error "no such container")
        (Except.error "no such container")).2 =
      [EngineCmd.stop "airlock-p", EngineCmd.rm "airlock-p"] := by
  have H := down_best_effort
    { name := "p", projectDir := "/p", workDir := ".", image := "i",
      build := none, engine := "", homeDir := "", cacheDir := "",
      mounts := [], env := [] } ""
    (Except.error "no such container") (Except.error "no such container")
  exact ⟨H.1, H.2 rfl⟩

/-! ## C10: Down only acts on names with the sandbox prefix -/

/-- C10: a non-empty target name that does not carry the sandbox prefix
gets it prepended, and whatever the arguments, the target Down acts on
starts with the prefix; the stop and rm invocations are issued exactly
on that target. -/
theorem down_target_sandbox (cfg : Config) (name : String)
    (stopResult rmResult : Except String Unit) :
    (name ≠ "" → hasPre name "airlock-" = false →
      downTarget cfg name = "airlock-" ++ name) ∧
    hasPre (downTarget cfg name) "airlock-" = true ∧
    (down cfg name stopResult rmResult).2 =
      [EngineCmd.stop (downTarget cfg name),
       EngineCmd.rm (downTarget cfg name)] := by
  refine ⟨?_, ?_, rfl⟩
  · intro h1 h2
    simp [downTarget, h1, h2]
  · by_cases h : name = ""
    · subst h
      simp [downTarget, containerName, hasPre_append]
    · cases hp : hasPre name "airlock-"
      · simp [downTarget, h, hp, hasPre_append]
      · simp [downTarget, h, hp]

/-- Witness for C10 at the unprefixed target name foo. -/
theorem down_target_sandbox_witness :
    downTarget { name := "p", projectDir := "/p", workDir := ".",
                 image := "i", build := none, engine := "", homeDir := "",
                 cacheDir := "", mounts := [], env := [] } "foo" =
      "airlock-" ++ "foo" ∧
    hasPre (downTarget { name := "p", projectDir := "/p", workDir := ".",
                         image := "i", build := none, engine := "",
                         homeDir := "", cacheDir := "", mounts := [],
                         env := [] } "foo") "airlock-" = true := by
  have H := down_target_sandbox
    { name := "p", projectDir := "/p", workDir := ".", image := "i",
      build := none, engine := "", homeDir := "", cacheDir := "",
      mounts := [], env := [] } "foo" (Except.ok ()) (Except.ok ())
  exact ⟨H.1 (by decide) (by decide), H.2.1⟩

end Airlock
